import Mathlib

/-!
Shallow embedding of `bot.py`: a Telegram bot gating access to a private
channel behind a YooKassa payment, with an opt-in broadcast engine.

The PostgreSQL tables `users` and `payments` (both keyed by `user_id`,
a primary key) are embedded as association lists keyed by `Int`.
Timestamps are abstracted as `Nat` values; each database-writing
operation takes the current time `now` explicitly (the source computes
it with `now_utc()`).

External collaborators (the YooKassa HTTP gateway, the Telegram
transport) are passed in as explicit parameters: a fetch of a payment is
a function `String → Except String Tx` (an `Except.error` models a
raised exception, carrying the message of the exception object), invite
minting is an `Except String String`, and broadcast delivery outcomes
are an oracle per recipient.
-/

namespace GambitBot

/-- A row of the `users` table: `is_subscribed`, `created_at`, `updated_at`
(the `user_id` primary key is the association-list key). -/
structure UserRow where
  is_subscribed : Bool
  created_at : Nat
  updated_at : Nat
deriving DecidableEq

/-- A row of the `payments` table: `payment_id`, `updated_at`
(the `user_id` primary key is the association-list key). -/
structure PaymentRow where
  payment_id : String
  updated_at : Nat
deriving DecidableEq

/-- The persistent database state: the `users` and `payments` tables. -/
structure Ledger where
  users : List (Int × UserRow)
  payments : List (Int × PaymentRow)
deriving DecidableEq

/-- Lookup by primary key (`SELECT ... WHERE user_id=$1`). -/
def lookupA {β : Type} (k : Int) : List (Int × β) → Option β
  | [] => none
  | p :: l => if p.1 = k then some p.2 else lookupA k l

/-- Upsert by primary key (`INSERT ... ON CONFLICT (user_id) DO UPDATE`):
if a row with key `k` exists it is updated with `f`, otherwise the fresh
row `v0` is inserted. -/
def upsertA {β : Type} (k : Int) (f : β → β) (v0 : β) : List (Int × β) → List (Int × β)
  | [] => [(k, v0)]
  | p :: l => if p.1 = k then (p.1, f p.2) :: l else p :: upsertA k f v0 l

/-- Delete by primary key (`DELETE ... WHERE user_id=$1`). -/
def eraseA {β : Type} (k : Int) : List (Int × β) → List (Int × β)
  | [] => []
  | p :: l => if p.1 = k then eraseA k l else p :: eraseA k l

/-- `upsert_user`: insert the user with `is_subscribed = FALSE`, or on
conflict update only `updated_at`. -/
def upsert_user (st : Ledger) (uid : Int) (now : Nat) : Ledger :=
  let us := upsertA uid (fun r => { r with updated_at := now }) (UserRow.mk false now now) st.users
  { st with users := us }

/-- `set_subscribed`: insert or update the subscription flag (and `updated_at`). -/
def set_subscribed (st : Ledger) (uid : Int) (b : Bool) (now : Nat) : Ledger :=
  let us := upsertA uid (fun r => { r with is_subscribed := b, updated_at := now }) (UserRow.mk b now now) st.users
  { st with users := us }

/-- `get_subscribed`: `bool(row and row["is_subscribed"])` — `false` when
the user row is missing. -/
def get_subscribed (st : Ledger) (uid : Int) : Bool :=
  match lookupA uid st.users with
  | some r => r.is_subscribed
  | none => false

/-- `remove_user`: inside one `conn.transaction()`, delete the user row and
the user's payment row. -/
def remove_user (st : Ledger) (uid : Int) : Ledger :=
  { users := eraseA uid st.users, payments := eraseA uid st.payments }

/-- `remove_user` as the database observes it: the enclosing transaction
either commits (both deletes applied) or rolls back (state untouched);
`commit` selects which of the two outcomes the transaction reached. -/
def remove_user_tx (st : Ledger) (uid : Int) (commit : Bool) : Ledger :=
  if commit then remove_user st uid else st

/-- `get_subscribers`: the ids of the users with `is_subscribed=TRUE`. -/
def get_subscribers (st : Ledger) : List Int :=
  (st.users.filter (fun p => p.2.is_subscribed)).map (fun p => p.1)

/-- `save_last_payment`: insert or overwrite the user's single payment
reference. -/
def save_last_payment (st : Ledger) (uid : Int) (pid : String) (now : Nat) : Ledger :=
  let ps := upsertA uid (fun r => { r with payment_id := pid, updated_at := now }) (PaymentRow.mk pid now) st.payments
  { st with payments := ps }

/-- `get_last_payment`: the stored `payment_id`, if any row exists. -/
def get_last_payment (st : Ledger) (uid : Int) : Option String :=
  (lookupA uid st.payments).map (fun r => r.payment_id)

/-- A transaction as returned by the gateway. `payment.get("status")` may be
absent, hence `Option`; `str((payment.get("metadata") or \x7b\x7d).get("tg_user_id", ""))`
is a plain string with the empty string standing for absent metadata. -/
structure Tx where
  status : Option String
  tg_user_id : String
deriving DecidableEq

/-- The parsed body of a successful create-payment response:
`payment["id"]` and `payment["confirmation"]["confirmation_url"]`. -/
structure CreateResp where
  id : String
  confirmation_url : String
deriving DecidableEq

/-- An HTTP response from the gateway: status code, raw body text, and the
body as parsed when the code is in the success range. -/
structure HttpResp (α : Type) where
  http_code : Nat
  body_text : String
  parsed : α

/-- `yk_create_payment`: raises `RuntimeError(f"YooKassa error \x7bresp.status\x7d: \x7btext\x7d")`
when the response status is in the error range (≥ 400), otherwise returns
the parsed body. -/
def yk_create_payment (r : HttpResp CreateResp) : Except String CreateResp :=
  if r.http_code ≥ 400 then
    Except.error ("YooKassa error " ++ toString r.http_code ++ ": " ++ r.body_text)
  else Except.ok r.parsed

/-- `yk_get_payment`: same error-range handling for the payment-fetch call. -/
def yk_get_payment (r : HttpResp Tx) : Except String Tx :=
  if r.http_code ≥ 400 then
    Except.error ("YooKassa error " ++ toString r.http_code ++ ": " ++ r.body_text)
  else Except.ok r.parsed

/-- Outcome of the `pay` callback as reported to the user. -/
inductive PayOutcome
  | gatewayErr (msg : String)
  | created (payment_id : String) (url : String)
deriving DecidableEq

/-- `cb_pay`: upsert the calling user, attempt the gateway create call
(`create` is its result; `Except.error` models the caught exception); on
failure answer with the error verbatim and persist nothing, on success
persist the returned id as the user's payment reference. -/
def cb_pay (st : Ledger) (uid : Int) (now : Nat) (create : Except String CreateResp) :
    Ledger × PayOutcome :=
  let st1 := upsert_user st uid now
  match create with
  | Except.error e => (st1, PayOutcome.gatewayErr e)
  | Except.ok p => (save_last_payment st1 uid p.id now, PayOutcome.created p.id p.confirmation_url)

/-- Outcome of the `check` callback as reported to the user. -/
inductive CheckOutcome
  | noPendingPayment
  | gatewayErr (msg : String)
  | confirmed
  | inProgress
  | failed (s : String)
deriving DecidableEq

/-- The decision logic of `cb_check` on the stored reference: Python's
`if not payment_id` treats both a missing row and an empty stored id as
"no pending payment"; a fetched status (defaulting to `"unknown"` when
absent) is mapped succeeded ↦ confirmed, pending / waiting_for_capture ↦
in progress, anything else ↦ failed. -/
def check_outcome (pay : Option String) (gw : String → Except String Tx) : CheckOutcome :=
  match pay with
  | none => CheckOutcome.noPendingPayment
  | some pid =>
    if pid = "" then CheckOutcome.noPendingPayment
    else
      match gw pid with
      | Except.error e => CheckOutcome.gatewayErr e
      | Except.ok tx =>
        let s := tx.status.getD ("unknown")
        if s = "succeeded" then CheckOutcome.confirmed
        else if s = "pending" ∨ s = "waiting_for_capture" then CheckOutcome.inProgress
        else CheckOutcome.failed s

/-- `cb_check`: the handler's only database write is the `upsert_user` at
entry; the reply is computed from the stored reference and the gateway
fetch `gw`. -/
def cb_check (st : Ledger) (uid : Int) (now : Nat) (gw : String → Except String Tx) :
    Ledger × CheckOutcome :=
  let st1 := upsert_user st uid now
  (st1, check_outcome (get_last_payment st1 uid) gw)

/-- Outcome of the `access` callback as reported to the user. -/
inductive AccessOutcome
  | noPendingPayment
  | gatewayErr (msg : String)
  | ownershipMismatch
  | notConfirmed (s : Option String)
  | grantFailed (reason : String)
  | granted (link : String)
deriving DecidableEq

/-- Result of the `access` callback: the database state, the reply, and
whether `issue_invite_link` (the AccessGranter) was invoked. -/
structure AccessResult where
  st : Ledger
  outcome : AccessOutcome
  granterCalled : Bool
deriving DecidableEq

/-- The decision logic of `cb_access` on the stored reference: missing or
empty reference ↦ no pending payment; fetch failure ↦ gateway error;
`str(meta.get("tg_user_id", "")) not in ("", str(user_id))` ↦ ownership
mismatch; status ≠ succeeded ↦ not confirmed; otherwise
`issue_invite_link` is invoked and its failure or link is reported. -/
def access_outcome (pay : Option String) (gw : String → Except String Tx) (uid : Int)
    (invite : Except String String) : AccessOutcome × Bool :=
  match pay with
  | none => (AccessOutcome.noPendingPayment, false)
  | some pid =>
    if pid = "" then (AccessOutcome.noPendingPayment, false)
    else
      match gw pid with
      | Except.error e => (AccessOutcome.gatewayErr e, false)
      | Except.ok tx =>
        if tx.tg_user_id ≠ "" ∧ tx.tg_user_id ≠ toString uid then
          (AccessOutcome.ownershipMismatch, false)
        else if tx.status ≠ some ("succeeded") then
          (AccessOutcome.notConfirmed tx.status, false)
        else
          match invite with
          | Except.error e => (AccessOutcome.grantFailed e, true)
          | Except.ok link => (AccessOutcome.granted link, true)

/-- `cb_access`: the handler's only database write is the `upsert_user` at
entry; the reply and whether the invite minter ran are computed from the
stored reference, the gateway fetch `gw`, and the invite attempt. -/
def cb_access (st : Ledger) (uid : Int) (now : Nat) (gw : String → Except String Tx)
    (invite : Except String String) : AccessResult :=
  let st1 := upsert_user st uid now
  let og := access_outcome (get_last_payment st1 uid) gw uid invite
  { st := st1, outcome := og.1, granterCalled := og.2 }

/-- The database effect of `/start`: `upsert_user` (the rest of the handler
only reads and sends messages). -/
def cmd_start (st : Ledger) (uid : Int) (now : Nat) : Ledger :=
  upsert_user st uid now

/-- The database effect of `/menu`: `upsert_user` (the rest of the handler
only reads and sends messages). -/
def cmd_menu (st : Ledger) (uid : Int) (now : Nat) : Ledger :=
  upsert_user st uid now

/-- `grant` repeated `n` times: the database state after `n` successive
calls of `cb_access` by the same user against the same gateway. -/
def accessIter (uid : Int) (now : Nat) (gw : String → Except String Tx)
    (invite : Except String String) : Nat → Ledger → Ledger
  | 0, st => st
  | n + 1, st => (cb_access (accessIter uid now gw invite n st) uid now gw invite).st

/-- How one delivery attempt to one recipient ends, mirroring the
exception classification of the broadcast loops: success,
`TelegramForbiddenError`, `TelegramRetryAfter(secs)`, or any other
exception. -/
inductive SendResult
  | delivered
  | forbidden
  | retryAfter (secs : Nat)
  | transient
deriving DecidableEq

/-- The transport as the broadcast loop observes it: the outcome of the
first attempt to each recipient, and of the one retry attempted after a
rate limit. -/
structure BEnv where
  first : Int → SendResult
  second : Int → SendResult

/-- The three counters of a broadcast run (`ok`, `blocked`, `failed`). -/
structure BCount where
  ok : Nat
  blocked : Nat
  failed : Nat
deriving DecidableEq

/-- An observable event of a broadcast run: a delivery attempt to a
recipient, or an `asyncio.sleep`. Durations are in centiseconds so the
source's constants stay exact: the pacing `sleep(0.05)` is `5`, and the
rate-limit pause `sleep(retry_after + 0.5)` is `100 * retry_after + 50`. -/
inductive BEvent
  | attempt (uid : Int)
  | pause (csec : Nat)
deriving DecidableEq

/-- The body of the broadcast loop for one recipient: deliver and pace;
on `TelegramForbiddenError` count blocked and `remove_user`; on
`TelegramRetryAfter` sleep `retry_after + 0.5` and retry once, counting
delivered or failed; on any other exception count failed. Returns the
database state, the counters, and the emitted events. -/
def bstep (env : BEnv) (st : Ledger) (c : BCount) (uid : Int) :
    Ledger × BCount × List BEvent :=
  match env.first uid with
  | SendResult.delivered =>
    (st, { c with ok := c.ok + 1 }, [BEvent.attempt uid, BEvent.pause 5])
  | SendResult.forbidden =>
    (remove_user st uid, { c with blocked := c.blocked + 1 }, [BEvent.attempt uid])
  | SendResult.retryAfter s =>
    match env.second uid with
    | SendResult.delivered =>
      (st, { c with ok := c.ok + 1 },
        [BEvent.attempt uid, BEvent.pause (100 * s + 50), BEvent.attempt uid])
    | _ =>
      (st, { c with failed := c.failed + 1 },
        [BEvent.attempt uid, BEvent.pause (100 * s + 50), BEvent.attempt uid])
  | SendResult.transient =>
    (st, { c with failed := c.failed + 1 }, [BEvent.attempt uid])

/-- The sequential broadcast loop over the remaining recipients. -/
def brun (env : BEnv) : List Int → Ledger → BCount → List BEvent →
    Ledger × BCount × List BEvent
  | [], st, c, ev => (st, c, ev)
  | uid :: rest, st, c, ev =>
    let r := bstep env st c uid
    brun env rest r.1 r.2.1 (ev ++ r.2.2)

/-- `/broadcast`: snapshot the subscribed set, then run the sequential
delivery loop from zeroed counters. The transport call
(`bot.send_message`) is abstracted into `env`. -/
def cmd_broadcast (st : Ledger) (env : BEnv) : Ledger × BCount × List BEvent :=
  brun env (get_subscribers st) st (BCount.mk 0 0 0) []

/-- `/broadcast_here`: identical loop, the transport call being
`src.copy_to` instead of `bot.send_message`; the difference is absorbed
by `env`. -/
def cmd_broadcast_here (st : Ledger) (env : BEnv) : Ledger × BCount × List BEvent :=
  brun env (get_subscribers st) st (BCount.mk 0 0 0) []

/-- The events one recipient's loop body emits; they depend only on the
transport outcomes for that recipient. -/
def stepEvents (env : BEnv) (uid : Int) : List BEvent :=
  match env.first uid with
  | SendResult.delivered => [BEvent.attempt uid, BEvent.pause 5]
  | SendResult.forbidden => [BEvent.attempt uid]
  | SendResult.retryAfter s =>
    [BEvent.attempt uid, BEvent.pause (100 * s + 50), BEvent.attempt uid]
  | SendResult.transient => [BEvent.attempt uid]

/-- Concatenation of the per-recipient event blocks, in recipient order. -/
def flatEvents (env : BEnv) : List Int → List BEvent
  | [] => []
  | uid :: rest => stepEvents env uid ++ flatEvents env rest

/-- Which counter one recipient ends up in. -/
inductive Tally
  | delivered
  | blocked
  | failed
deriving DecidableEq

/-- The counter a recipient contributes to, as a function of the transport
outcomes: first-attempt success or a successful retry count as delivered,
a first-attempt `TelegramForbiddenError` as blocked, everything else as
failed. -/
def classify (env : BEnv) (uid : Int) : Tally :=
  match env.first uid with
  | SendResult.delivered => Tally.delivered
  | SendResult.forbidden => Tally.blocked
  | SendResult.retryAfter _ =>
    if env.second uid = SendResult.delivered then Tally.delivered else Tally.failed
  | SendResult.transient => Tally.failed

/-- The number of recipients in `l` contributing to tally `t`. -/
def tallyCount (env : BEnv) (t : Tally) (l : List Int) : Nat :=
  (l.filter (fun u => decide (classify env u = t))).length

/-! ### Association-list lemmas -/

theorem lookupA_eraseA_self {β : Type} (k : Int) (l : List (Int × β)) :
    lookupA k (eraseA k l) = none := by
  induction l with
  | nil => rfl
  | cons p l ih =>
    by_cases h : p.1 = k
    · simpa [eraseA, h] using ih
    · simp [eraseA, lookupA, h, ih]

theorem lookupA_eraseA_ne {β : Type} {u k : Int} (h : u ≠ k) (l : List (Int × β)) :
    lookupA u (eraseA k l) = lookupA u l := by
  have hku : k ≠ u := fun e => h e.symm
  induction l with
  | nil => rfl
  | cons p l ih =>
    by_cases hp : p.1 = k
    · simp [eraseA, hp, lookupA, hku, ih]
    · by_cases hpu : p.1 = u
      · simp [eraseA, hp, lookupA, hpu, h]
      · simp [eraseA, hp, lookupA, hpu, ih]

theorem lookupA_eraseA_none {β : Type} {u k : Int} {l : List (Int × β)}
    (h : lookupA u l = none) : lookupA u (eraseA k l) = none := by
  by_cases hk : u = k
  · rw [hk]; exact lookupA_eraseA_self k l
  · rw [lookupA_eraseA_ne hk]; exact h

theorem lookupA_upsertA_self_none {β : Type} {k : Int} {l : List (Int × β)}
    (f : β → β) (v0 : β) (h : lookupA k l = none) :
    lookupA k (upsertA k f v0 l) = some v0 := by
  induction l with
  | nil => simp [upsertA, lookupA]
  | cons p l ih =>
    by_cases hp : p.1 = k
    · simp [lookupA, hp] at h
    · simp only [lookupA, hp, if_false] at h
      simp [upsertA, lookupA, hp, ih h]

theorem lookupA_upsertA_self_some {β : Type} {k : Int} {l : List (Int × β)} {v : β}
    (f : β → β) (v0 : β) (h : lookupA k l = some v) :
    lookupA k (upsertA k f v0 l) = some (f v) := by
  induction l with
  | nil => simp [lookupA] at h
  | cons p l ih =>
    by_cases hp : p.1 = k
    · simp only [lookupA, hp, if_true] at h
      cases h
      simp [upsertA, lookupA, hp]
    · simp only [lookupA, hp, if_false] at h
      simp [upsertA, lookupA, hp, ih h]

theorem lookupA_upsertA_ne {β : Type} {u k : Int} (h : u ≠ k) (f : β → β) (v0 : β)
    (l : List (Int × β)) : lookupA u (upsertA k f v0 l) = lookupA u l := by
  have hku : k ≠ u := fun e => h e.symm
  induction l with
  | nil => simp [upsertA, lookupA, hku]
  | cons p l ih =>
    by_cases hp : p.1 = k
    · simp [upsertA, hp, lookupA, hku]
    · by_cases hpu : p.1 = u
      · simp [upsertA, hp, lookupA, hpu, h]
      · simp [upsertA, hp, lookupA, hpu, ih]

/-! ### Handler state lemmas -/

theorem upsert_user_payments (st : Ledger) (uid : Int) (now : Nat) :
    (upsert_user st uid now).payments = st.payments := rfl

theorem get_last_payment_upsert_user (st : Ledger) (uid : Int) (now : Nat) (u : Int) :
    get_last_payment (upsert_user st uid now) u = get_last_payment st u := rfl

theorem cb_check_state (st : Ledger) (uid : Int) (now : Nat)
    (gw : String → Except String Tx) :
    (cb_check st uid now gw).1 = upsert_user st uid now := rfl

theorem cb_access_state (st : Ledger) (uid : Int) (now : Nat)
    (gw : String → Except String Tx) (invite : Except String String) :
    (cb_access st uid now gw invite).st = upsert_user st uid now := rfl

theorem get_subscribed_upsert_user (st : Ledger) (uid : Int) (now : Nat) (u : Int) :
    get_subscribed (upsert_user st uid now) u = get_subscribed st u := by
  unfold get_subscribed upsert_user
  by_cases h : u = uid
  · subst h
    cases hl : lookupA u st.users with
    | none =>
      rw [lookupA_upsertA_self_none _ _ hl]
    | some r =>
      rw [lookupA_upsertA_self_some _ _ hl]
  · simp only []
    rw [lookupA_upsertA_ne h]

/-! ### Broadcast loop lemmas -/

theorem brun_cons (env : BEnv) (u : Int) (l : List Int) (st : Ledger) (c : BCount)
    (ev : List BEvent) :
    brun env (u :: l) st c ev =
      brun env l (bstep env st c u).1 (bstep env st c u).2.1 (ev ++ (bstep env st c u).2.2) := rfl

theorem bstep_count (env : BEnv) (st : Ledger) (c : BCount) (uid : Int) :
    (bstep env st c uid).2.1 =
      match classify env uid with
      | Tally.delivered => { c with ok := c.ok + 1 }
      | Tally.blocked => { c with blocked := c.blocked + 1 }
      | Tally.failed => { c with failed := c.failed + 1 } := by
  cases h : env.first uid with
  | delivered => simp [bstep, classify, h]
  | forbidden => simp [bstep, classify, h]
  | retryAfter s =>
    cases h2 : env.second uid <;> simp [bstep, classify, h, h2]
  | transient => simp [bstep, classify, h]

theorem bstep_events (env : BEnv) (st : Ledger) (c : BCount) (uid : Int) :
    (bstep env st c uid).2.2 = stepEvents env uid := by
  cases h : env.first uid with
  | delivered => simp [bstep, stepEvents, h]
  | forbidden => simp [bstep, stepEvents, h]
  | retryAfter s =>
    cases h2 : env.second uid <;> simp [bstep, stepEvents, h, h2]
  | transient => simp [bstep, stepEvents, h]

theorem bstep_ledger_forbidden (env : BEnv) (st : Ledger) (c : BCount) (uid : Int)
    (h : env.first uid = SendResult.forbidden) :
    (bstep env st c uid).1 = remove_user st uid := by
  simp [bstep, h]

theorem bstep_ledger_not_forbidden (env : BEnv) (st : Ledger) (c : BCount) (uid : Int)
    (h : env.first uid ≠ SendResult.forbidden) :
    (bstep env st c uid).1 = st := by
  cases h1 : env.first uid with
  | delivered => simp [bstep, h1]
  | forbidden => exact absurd h1 h
  | retryAfter s => cases h2 : env.second uid <;> simp [bstep, h1, h2]
  | transient => simp [bstep, h1]

theorem tallyCount_cons (env : BEnv) (t : Tally) (u : Int) (l : List Int) :
    tallyCount env t (u :: l) =
      (if classify env u = t then 1 else 0) + tallyCount env t l := by
  by_cases h : classify env u = t <;>
    simp [tallyCount, List.filter_cons, h, Nat.add_comm]

theorem brun_tally (env : BEnv) (l : List Int) : ∀ (st : Ledger) (c : BCount)
    (ev : List BEvent),
    (brun env l st c ev).2.1.ok = c.ok + tallyCount env Tally.delivered l ∧
    (brun env l st c ev).2.1.blocked = c.blocked + tallyCount env Tally.blocked l ∧
    (brun env l st c ev).2.1.failed = c.failed + tallyCount env Tally.failed l := by
  induction l with
  | nil => intro st c ev; simp [brun, tallyCount]
  | cons u l ih =>
    intro st c ev
    rw [brun_cons]
    have hcnt := bstep_count env st c u
    have h3 := ih (bstep env st c u).1 (bstep env st c u).2.1 (ev ++ (bstep env st c u).2.2)
    rw [tallyCount_cons, tallyCount_cons, tallyCount_cons]
    cases ht : classify env u <;>
      (rw [ht] at hcnt; simp at hcnt; rw [hcnt] at h3 ⊢; simp at h3
       obtain ⟨ha, hb, hc⟩ := h3; simp [ht]
       refine ⟨?_, ?_, ?_⟩ <;> omega)

theorem tallyCount_total (env : BEnv) (l : List Int) :
    tallyCount env Tally.delivered l + tallyCount env Tally.blocked l +
      tallyCount env Tally.failed l = l.length := by
  induction l with
  | nil => rfl
  | cons u l ih =>
    rw [tallyCount_cons, tallyCount_cons, tallyCount_cons]
    cases h : classify env u <;> simp [h] <;> omega

theorem brun_absent (env : BEnv) (l : List Int) : ∀ (st : Ledger) (c : BCount)
    (ev : List BEvent) (uid : Int),
    lookupA uid st.users = none → lookupA uid st.payments = none →
    lookupA uid (brun env l st c ev).1.users = none ∧
    lookupA uid (brun env l st c ev).1.payments = none := by
  induction l with
  | nil => intro st c ev uid h1 h2; exact ⟨h1, h2⟩
  | cons u l ih =>
    intro st c ev uid h1 h2
    rw [brun_cons]
    by_cases hf : env.first u = SendResult.forbidden
    · rw [bstep_ledger_forbidden env st c u hf]
      exact ih _ _ _ uid (lookupA_eraseA_none h1) (lookupA_eraseA_none h2)
    · rw [bstep_ledger_not_forbidden env st c u hf]
      exact ih _ _ _ uid h1 h2

theorem brun_preserves (env : BEnv) (l : List Int) (uid : Int)
    (hne : env.first uid ≠ SendResult.forbidden) : ∀ (st : Ledger) (c : BCount)
    (ev : List BEvent),
    lookupA uid (brun env l st c ev).1.users = lookupA uid st.users ∧
    lookupA uid (brun env l st c ev).1.payments = lookupA uid st.payments := by
  induction l with
  | nil => intro st c ev; exact ⟨rfl, rfl⟩
  | cons u l ih =>
    intro st c ev
    rw [brun_cons]
    by_cases hf : env.first u = SendResult.forbidden
    · have huid : uid ≠ u := fun e => hne (e ▸ hf)
      rw [bstep_ledger_forbidden env st c u hf]
      have h3 := ih (remove_user st u) (bstep env st c u).2.1 (ev ++ (bstep env st c u).2.2)
      rw [h3.1, h3.2]
      exact ⟨lookupA_eraseA_ne huid _, lookupA_eraseA_ne huid _⟩
    · rw [bstep_ledger_not_forbidden env st c u hf]
      exact ih _ _ _

theorem brun_forbidden_removed (env : BEnv) (l : List Int) : ∀ (st : Ledger) (c : BCount)
    (ev : List BEvent) (uid : Int), uid ∈ l → env.first uid = SendResult.forbidden →
    lookupA uid (brun env l st c ev).1.users = none ∧
    lookupA uid (brun env l st c ev).1.payments = none := by
  induction l with
  | nil => intro st c ev uid h; exact absurd h (List.not_mem_nil uid)
  | cons u l ih =>
    intro st c ev uid hmem hf
    rw [brun_cons]
    rcases List.mem_cons.mp hmem with he | hmem2
    · subst he
      rw [bstep_ledger_forbidden env st c uid hf]
      exact brun_absent env l _ _ _ uid (lookupA_eraseA_self uid st.users)
        (lookupA_eraseA_self uid st.payments)
    · exact ih _ _ _ uid hmem2 hf

theorem brun_events (env : BEnv) (l : List Int) : ∀ (st : Ledger) (c : BCount)
    (ev : List BEvent), (brun env l st c ev).2.2 = ev ++ flatEvents env l := by
  induction l with
  | nil => intro st c ev; simp [brun, flatEvents]
  | cons u l ih =>
    intro st c ev
    rw [brun_cons]
    rw [ih, bstep_events]
    simp [flatEvents]

theorem cb_check_outcome_eq (st : Ledger) (uid : Int) (now : Nat)
    (gw : String → Except String Tx) :
    (cb_check st uid now gw).2 = check_outcome (get_last_payment st uid) gw := rfl

theorem check_outcome_ne_nop {pid : String} (hne : pid ≠ "")
    (gw : String → Except String Tx) :
    check_outcome (some pid) gw ≠ CheckOutcome.noPendingPayment := by
  simp only [check_outcome, hne, if_false]
  cases hg : gw pid with
  | error e => simp
  | ok tx => dsimp only; split_ifs <;> simp

theorem get_last_payment_save (st : Ledger) (uid : Int) (pid : String) (now : Nat) :
    get_last_payment (save_last_payment st uid pid now) uid = some pid := by
  unfold get_last_payment save_last_payment
  cases hl : lookupA uid st.payments with
  | none => rw [lookupA_upsertA_self_none _ _ hl]; rfl
  | some r => rw [lookupA_upsertA_self_some _ _ hl]; rfl

/-! ### Claim theorems -/

/-- Claim C1, counterexample to the stated equivalence: with the reference
`""` stored for user 1, a payment reference is stored, yet `check` answers
"no pending payment" (`if not payment_id` in Python is also true for the
empty string). -/
theorem check_nop_counterexample :
    (cb_check (Ledger.mk [] [(1, PaymentRow.mk ("") 0)]) 1 0
        (fun _ => Except.error ("down"))).2 = CheckOutcome.noPendingPayment ∧
    get_last_payment (Ledger.mk [] [(1, PaymentRow.mk ("") 0)]) 1 ≠ none := by
  decide

/-- Claim C1 (amended): `check` fails with no-pending-payment exactly when no
payment reference is stored for the user or the stored reference is the empty
string; otherwise, when the gateway fetch succeeds, it returns confirmed when
the status is `"succeeded"`, in-progress when it is `"pending"` or
`"waiting_for_capture"`, and failed-with-status for any other status value
(a missing status field reads as `"unknown"`). -/
theorem check_maps_gateway_status (st : Ledger) (uid : Int) (now : Nat)
    (gw : String → Except String Tx) :
    ((cb_check st uid now gw).2 = CheckOutcome.noPendingPayment ↔
      (get_last_payment st uid = none ∨ get_last_payment st uid = some (""))) ∧
    (∀ (pid : String) (tx : Tx), get_last_payment st uid = some pid → pid ≠ "" →
      gw pid = Except.ok tx →
      ((tx.status.getD ("unknown") = "succeeded" →
          (cb_check st uid now gw).2 = CheckOutcome.confirmed) ∧
       ((tx.status.getD ("unknown") = "pending" ∨
         tx.status.getD ("unknown") = "waiting_for_capture") →
          (cb_check st uid now gw).2 = CheckOutcome.inProgress) ∧
       (tx.status.getD ("unknown") ≠ "succeeded" →
        tx.status.getD ("unknown") ≠ "pending" →
        tx.status.getD ("unknown") ≠ "waiting_for_capture" →
          (cb_check st uid now gw).2 =
            CheckOutcome.failed (tx.status.getD ("unknown"))))) := by
  constructor
  · rw [cb_check_outcome_eq]
    cases hp : get_last_payment st uid with
    | none => simp [check_outcome]
    | some pid =>
      by_cases he : pid = ""
      · subst he; simp [check_outcome]
      · exact iff_of_false (check_outcome_ne_nop he gw) (by simp [he])
  · intro pid tx hp hne hg
    rw [cb_check_outcome_eq, hp]
    simp only [check_outcome, hne, if_false, hg]
    refine ⟨?_, ?_, ?_⟩
    · intro hs; simp [hs]
    · rintro (hs | hs) <;> simp [hs]
    · intro h1 h2 h3; simp [h1, h2, h3]

/-- Claim C2: when the gateway create call returns an error-range status,
`pay` reports the gateway error verbatim and persists nothing in the
payments table; the same holds for any raised error; when the create call
succeeds, the returned transaction id is persisted as the user's payment
reference, overwriting whatever was there. -/
theorem pay_persists_iff_create_succeeds (st : Ledger) (uid : Int) (now : Nat) :
    (∀ r : HttpResp CreateResp, r.http_code ≥ 400 →
      (cb_pay st uid now (yk_create_payment r)).2 =
        PayOutcome.gatewayErr ("YooKassa error " ++ toString r.http_code ++ ": " ++ r.body_text) ∧
      (cb_pay st uid now (yk_create_payment r)).1.payments = st.payments) ∧
    (∀ e : String,
      (cb_pay st uid now (Except.error e)).2 = PayOutcome.gatewayErr e ∧
      (cb_pay st uid now (Except.error e)).1.payments = st.payments) ∧
    (∀ p : CreateResp,
      (cb_pay st uid now (Except.ok p)).2 = PayOutcome.created p.id p.confirmation_url ∧
      get_last_payment (cb_pay st uid now (Except.ok p)).1 uid = some p.id) := by
  refine ⟨?_, ?_, ?_⟩
  · intro r h
    simp only [yk_create_payment, h, if_pos, ge_iff_le]
    exact ⟨rfl, rfl⟩
  · intro e; exact ⟨rfl, rfl⟩
  · intro p
    refine ⟨rfl, ?_⟩
    exact get_last_payment_save (upsert_user st uid now) uid p.id now

theorem cb_access_outcome_eq (st : Ledger) (uid : Int) (now : Nat)
    (gw : String → Except String Tx) (invite : Except String String) :
    (cb_access st uid now gw invite).outcome =
      (access_outcome (get_last_payment st uid) gw uid invite).1 := rfl

theorem cb_access_granter_eq (st : Ledger) (uid : Int) (now : Nat)
    (gw : String → Except String Tx) (invite : Except String String) :
    (cb_access st uid now gw invite).granterCalled =
      (access_outcome (get_last_payment st uid) gw uid invite).2 := rfl

/-- Claim C3: a stored transaction with non-empty owner metadata that differs
from the requesting user's id makes `grant` fail with ownership-mismatch
without invoking the invite minter; empty owner metadata passes the
ownership check for any requesting user. -/
theorem grant_ownership_mismatch (st : Ledger) (uid : Int) (now : Nat)
    (gw : String → Except String Tx) (invite : Except String String)
    (pid : String) (tx : Tx)
    (h1 : get_last_payment st uid = some pid) (h2 : pid ≠ "")
    (h3 : gw pid = Except.ok tx) :
    (tx.tg_user_id ≠ "" → tx.tg_user_id ≠ toString uid →
      (cb_access st uid now gw invite).outcome = AccessOutcome.ownershipMismatch ∧
      (cb_access st uid now gw invite).granterCalled = false) ∧
    (tx.tg_user_id = "" →
      (cb_access st uid now gw invite).outcome ≠ AccessOutcome.ownershipMismatch) := by
  constructor
  · intro ha hb
    constructor
    · rw [cb_access_outcome_eq, h1]
      simp [access_outcome, h2, h3, ha, hb]
    · rw [cb_access_granter_eq, h1]
      simp [access_outcome, h2, h3, ha, hb]
  · intro hempty
    rw [cb_access_outcome_eq, h1]
    simp only [access_outcome]
    rw [if_neg h2, h3]
    dsimp only
    rw [if_neg (by simp [hempty])]
    split_ifs with hs
    · simp
    · cases invite <;> simp

theorem get_last_payment_cb_access (st : Ledger) (uid : Int) (now : Nat)
    (gw : String → Except String Tx) (invite : Except String String) (u : Int) :
    get_last_payment (cb_access st uid now gw invite).st u = get_last_payment st u := rfl

theorem get_last_payment_accessIter (uid : Int) (now : Nat)
    (gw : String → Except String Tx) (invite : Except String String) (n : Nat)
    (st : Ledger) (u : Int) :
    get_last_payment (accessIter uid now gw invite n st) u = get_last_payment st u := by
  induction n with
  | zero => rfl
  | succ n ih =>
    rw [accessIter]
    rw [get_last_payment_cb_access]
    exact ih

theorem cb_access_granted {st : Ledger} {uid : Int} {now : Nat}
    {gw : String → Except String Tx} {pid : String} {tx : Tx}
    (h1 : get_last_payment st uid = some pid) (h2 : pid ≠ "")
    (h3 : gw pid = Except.ok tx) (h4 : tx.status = some ("succeeded"))
    (h5 : tx.tg_user_id = "" ∨ tx.tg_user_id = toString uid) (link : String) :
    (cb_access st uid now gw (Except.ok link)).outcome = AccessOutcome.granted link := by
  rw [cb_access_outcome_eq, h1]
  simp only [access_outcome]
  rw [if_neg h2, h3]
  dsimp only
  rw [if_neg (by rcases h5 with h | h <;> simp [h])]
  rw [if_neg (by simp [h4])]

/-- Claim C4: from a stored succeeded transaction with matching (or empty)
owner metadata, `grant` never writes the payments table, succeeds on every
one of arbitrarily many successive calls, and a failed invite mint reports
grant-failed while leaving the reference in place, so the next call can
still succeed. -/
theorem grant_reenterable (st : Ledger) (uid : Int) (now : Nat)
    (gw : String → Except String Tx) (pid : String) (tx : Tx)
    (h1 : get_last_payment st uid = some pid) (h2 : pid ≠ "")
    (h3 : gw pid = Except.ok tx) (h4 : tx.status = some ("succeeded"))
    (h5 : tx.tg_user_id = "" ∨ tx.tg_user_id = toString uid) :
    (∀ invite : Except String String,
      (cb_access st uid now gw invite).st.payments = st.payments) ∧
    (∀ (link : String) (n : Nat),
      (cb_access (accessIter uid now gw (Except.ok link) n st) uid now gw
        (Except.ok link)).outcome = AccessOutcome.granted link) ∧
    (∀ e : String,
      (cb_access st uid now gw (Except.error e)).outcome = AccessOutcome.grantFailed e ∧
      ∀ link : String,
        (cb_access (cb_access st uid now gw (Except.error e)).st uid now gw
          (Except.ok link)).outcome = AccessOutcome.granted link) := by
  refine ⟨fun _ => rfl, ?_, ?_⟩
  · intro link n
    have hn : get_last_payment (accessIter uid now gw (Except.ok link) n st) uid = some pid := by
      rw [get_last_payment_accessIter]; exact h1
    exact cb_access_granted hn h2 h3 h4 h5 link
  · intro e
    constructor
    · rw [cb_access_outcome_eq, h1]
      simp only [access_outcome]
      rw [if_neg h2, h3]
      dsimp only
      rw [if_neg (by rcases h5 with h | h <;> simp [h])]
      rw [if_neg (by simp [h4])]
    · intro link
      have hp : get_last_payment (cb_access st uid now gw (Except.error e)).st uid = some pid := by
        rw [get_last_payment_cb_access]; exact h1
      exact cb_access_granted hp h2 h3 h4 h5 link

/-- Claim C5, counterexample to the stated frame property: at the empty
database, a `check` by user 1 inserts a users row for user 1, so the users
table is not identical before and after the call. -/
theorem check_mutates_users_counterexample :
    (cb_check (Ledger.mk [] []) 1 0 (fun _ => Except.error ("down"))).1.users ≠
      (Ledger.mk [] []).users := by decide

theorem lookupA_upsert_user_ne {u uid : Int} (h : u ≠ uid) (st : Ledger) (now : Nat) :
    lookupA u (upsert_user st uid now).users = lookupA u st.users := by
  simp only [upsert_user]
  exact lookupA_upsertA_ne h _ _ _

/-- Claim C5 (amended): the entire database effect of `check` is the
`upsert_user` of the calling user — the payments table is unchanged, no
user's subscription flag changes, and the user rows of every other user are
untouched — regardless of the outcome returned. -/
theorem check_effect_is_upsert (st : Ledger) (uid : Int) (now : Nat)
    (gw : String → Except String Tx) :
    (cb_check st uid now gw).1 = upsert_user st uid now ∧
    (cb_check st uid now gw).1.payments = st.payments ∧
    (∀ u : Int, get_subscribed (cb_check st uid now gw).1 u = get_subscribed st u) ∧
    (∀ u : Int, u ≠ uid → lookupA u (cb_check st uid now gw).1.users = lookupA u st.users) := by
  refine ⟨rfl, rfl, ?_, ?_⟩
  · intro u
    rw [cb_check_state]
    exact get_subscribed_upsert_user st uid now u
  · intro u hu
    rw [cb_check_state]
    exact lookupA_upsert_user_ne hu st now

theorem classify_blocked_iff (env : BEnv) (u : Int) :
    classify env u = Tally.blocked ↔ env.first u = SendResult.forbidden := by
  cases h : env.first u with
  | delivered => simp [classify, h]
  | forbidden => simp [classify, h]
  | retryAfter s => simp only [classify, h]; split_ifs <;> simp
  | transient => simp [classify, h]

theorem tallyCount_blocked_eq (env : BEnv) (l : List Int) :
    tallyCount env Tally.blocked l =
      (l.filter (fun u => decide (env.first u = SendResult.forbidden))).length := by
  unfold tallyCount
  congr 1
  apply List.filter_congr
  intro u _
  exact decide_eq_decide.mpr (classify_blocked_iff env u)

/-- Claim C6: over the snapshot of subscribed recipients, the final counters
satisfy delivered + blocked + failed = N; the blocked counter is exactly the
number of recipients whose first delivery attempt hit the permanent-block
error; and every such recipient's user row and payment row are absent from
the final ledger. -/
theorem broadcast_counters_and_cleanup (st : Ledger) (env : BEnv) :
    (cmd_broadcast st env).2.1.ok + (cmd_broadcast st env).2.1.blocked +
        (cmd_broadcast st env).2.1.failed = (get_subscribers st).length ∧
    (cmd_broadcast st env).2.1.blocked =
      ((get_subscribers st).filter
        (fun u => decide (env.first u = SendResult.forbidden))).length ∧
    (∀ uid : Int, uid ∈ get_subscribers st → env.first uid = SendResult.forbidden →
      lookupA uid (cmd_broadcast st env).1.users = none ∧
      lookupA uid (cmd_broadcast st env).1.payments = none) := by
  obtain ⟨ha, hb, hc⟩ := brun_tally env (get_subscribers st) st (BCount.mk 0 0 0) []
  have htot := tallyCount_total env (get_subscribers st)
  have hcb : cmd_broadcast st env = brun env (get_subscribers st) st (BCount.mk 0 0 0) [] := rfl
  refine ⟨?_, ?_, ?_⟩
  · rw [hcb, ha, hb, hc]
    simpa using htot
  · rw [hcb, hb, ← tallyCount_blocked_eq]
    simp
  · intro uid hm hf
    rw [hcb]
    exact brun_forbidden_removed env (get_subscribers st) st (BCount.mk 0 0 0) [] uid hm hf

/-- Claim C7: on a rate-limited first attempt the loop emits exactly: the
attempt, one pause of `retry_after` plus the half-second margin, and one
retry to the same recipient; the retry decides delivered versus failed with
no further retry; and the whole run's event trace is the in-order
concatenation of the per-recipient blocks, so nothing else happens during
the pause. -/
theorem broadcast_rate_limit_retry (st : Ledger) (env : BEnv) (uid : Int) (s : Nat)
    (h : env.first uid = SendResult.retryAfter s) :
    stepEvents env uid =
      [BEvent.attempt uid, BEvent.pause (100 * s + 50), BEvent.attempt uid] ∧
    (∀ (st2 : Ledger) (c : BCount),
      (bstep env st2 c uid).2.1 =
        if env.second uid = SendResult.delivered then { c with ok := c.ok + 1 }
        else { c with failed := c.failed + 1 }) ∧
    (cmd_broadcast st env).2.2 = flatEvents env (get_subscribers st) := by
  refine ⟨by simp [stepEvents, h], ?_, ?_⟩
  · intro st2 c
    cases hs : env.second uid with
    | delivered => simp [bstep, h, hs]
    | forbidden => simp [bstep, h, hs]
    | retryAfter t => simp [bstep, h, hs]
    | transient => simp [bstep, h, hs]
  · have he := brun_events env (get_subscribers st) st (BCount.mk 0 0 0) []
    simpa [cmd_broadcast] using he

/-- Claim C8: deleting a user cascades atomically: when the transaction
commits, both the user row and the user's payment row are absent; when it
rolls back, the state is exactly the original — never one without the
other. -/
theorem delete_user_cascades_atomically (st : Ledger) (uid : Int) (commit : Bool) :
    (commit = true →
      lookupA uid (remove_user_tx st uid commit).users = none ∧
      lookupA uid (remove_user_tx st uid commit).payments = none) ∧
    (commit = false → remove_user_tx st uid commit = st) := by
  constructor
  · intro h; subst h
    constructor <;> simp [remove_user_tx, remove_user, lookupA_eraseA_self]
  · intro h; subst h; rfl

/-- Claim C9: a recipient whose rate-limit retry fails with the
permanent-block error is counted as failed (not blocked) and is not deleted:
the loop body for that recipient leaves the ledger untouched and bumps only
the failed counter, and over the whole run that recipient's user and payment
rows are exactly as before. -/
theorem retry_forbidden_counts_failed (st : Ledger) (env : BEnv) (uid : Int) (s : Nat)
    (h1 : env.first uid = SendResult.retryAfter s)
    (h2 : env.second uid = SendResult.forbidden) :
    (∀ (st2 : Ledger) (c : BCount),
      (bstep env st2 c uid).1 = st2 ∧
      (bstep env st2 c uid).2.1 = { c with failed := c.failed + 1 }) ∧
    lookupA uid (cmd_broadcast st env).1.users = lookupA uid st.users ∧
    lookupA uid (cmd_broadcast st env).1.payments = lookupA uid st.payments := by
  have hne : env.first uid ≠ SendResult.forbidden := by rw [h1]; simp
  have hpres := brun_preserves env (get_subscribers st) uid hne st (BCount.mk 0 0 0) []
  refine ⟨?_, hpres.1, hpres.2⟩
  intro st2 c
  constructor <;> simp [bstep, h1, h2]

theorem get_subscribed_save (st : Ledger) (uid : Int) (pid : String) (now : Nat) (u : Int) :
    get_subscribed (save_last_payment st uid pid now) u = get_subscribed st u := rfl

/-- Claim C10: upserting an existing user changes only its `updated_at`, a
fresh user is created with `is_subscribed = FALSE`, other users' rows are
untouched, and therefore the start, menu, pay, check and access handlers
never change any user's subscription status. -/
theorem upsert_preserves_subscription (st : Ledger) (uid : Int) (now : Nat) :
    (∀ r : UserRow, lookupA uid st.users = some r →
      lookupA uid (upsert_user st uid now).users = some { r with updated_at := now }) ∧
    (lookupA uid st.users = none →
      lookupA uid (upsert_user st uid now).users = some (UserRow.mk false now now)) ∧
    (∀ u : Int, u ≠ uid → lookupA u (upsert_user st uid now).users = lookupA u st.users) ∧
    (∀ u : Int, get_subscribed (cmd_start st uid now) u = get_subscribed st u) ∧
    (∀ u : Int, get_subscribed (cmd_menu st uid now) u = get_subscribed st u) ∧
    (∀ (cr : Except String CreateResp) (u : Int),
      get_subscribed (cb_pay st uid now cr).1 u = get_subscribed st u) ∧
    (∀ (gw : String → Except String Tx) (u : Int),
      get_subscribed (cb_check st uid now gw).1 u = get_subscribed st u) ∧
    (∀ (gw : String → Except String Tx) (invite : Except String String) (u : Int),
      get_subscribed (cb_access st uid now gw invite).st u = get_subscribed st u) := by
  refine ⟨?_, ?_, ?_, ?_, ?_, ?_, ?_, ?_⟩
  · intro r hr
    simp only [upsert_user]
    exact lookupA_upsertA_self_some _ _ hr
  · intro hr
    simp only [upsert_user]
    exact lookupA_upsertA_self_none _ _ hr
  · intro u hu
    exact lookupA_upsert_user_ne hu st now
  · intro u; exact get_subscribed_upsert_user st uid now u
  · intro u; exact get_subscribed_upsert_user st uid now u
  · intro cr u
    cases cr with
    | error e => exact get_subscribed_upsert_user st uid now u
    | ok p =>
      show get_subscribed (save_last_payment (upsert_user st uid now) uid p.id now) u = _
      rw [get_subscribed_save]
      exact get_subscribed_upsert_user st uid now u
  · intro gw u
    rw [cb_check_state]
    exact get_subscribed_upsert_user st uid now u
  · intro gw invite u
    rw [cb_access_state]
    exact get_subscribed_upsert_user st uid now u

/-! ### Concrete witnesses -/

/-- Witness for C1 at a concrete state: user 7 stores `"tx-1"`, the gateway
reports status `"succeeded"`, so `check` answers confirmed. -/
theorem check_maps_gateway_status_witness :
    (cb_check (Ledger.mk [] [(7, PaymentRow.mk ("tx-1") 0)]) 7 0
        (fun _ => Except.ok (Tx.mk (some ("succeeded")) ("7")))).2 =
      CheckOutcome.confirmed := by
  have h := (check_maps_gateway_status (Ledger.mk [] [(7, PaymentRow.mk ("tx-1") 0)]) 7 0
      (fun _ => Except.ok (Tx.mk (some ("succeeded")) ("7")))).2 ("tx-1")
      (Tx.mk (some ("succeeded")) ("7")) (by decide) (by decide) rfl
  exact h.1 (by decide)

/-- Witness for C2 at a concrete state: a 500 response persists nothing in
the empty payments table, and a successful create persists the returned
id. -/
theorem pay_persists_iff_create_succeeds_witness :
    (cb_pay (Ledger.mk [] []) 7 0
        (yk_create_payment (HttpResp.mk 500 ("oops") (CreateResp.mk ("x") ("y"))))).1.payments =
      [] ∧
    get_last_payment
        (cb_pay (Ledger.mk [] []) 7 0
          (Except.ok (CreateResp.mk ("tx-9") ("http://pay")))).1 7 = some ("tx-9") := by
  have h := pay_persists_iff_create_succeeds (Ledger.mk [] []) 7 0
  exact ⟨(h.1 (HttpResp.mk 500 ("oops") (CreateResp.mk ("x") ("y"))) (by decide)).2,
    (h.2.2 (CreateResp.mk ("tx-9") ("http://pay"))).2⟩

/-- Witness for C3 at a concrete state: user 7 requests access against a
transaction owned by `"8"`: mismatch, and the invite minter never runs. -/
theorem grant_ownership_mismatch_witness :
    (cb_access (Ledger.mk [] [(7, PaymentRow.mk ("tx-1") 0)]) 7 0
        (fun _ => Except.ok (Tx.mk (some ("succeeded")) ("8")))
        (Except.ok ("L"))).outcome = AccessOutcome.ownershipMismatch ∧
    (cb_access (Ledger.mk [] [(7, PaymentRow.mk ("tx-1") 0)]) 7 0
        (fun _ => Except.ok (Tx.mk (some ("succeeded")) ("8")))
        (Except.ok ("L"))).granterCalled = false := by
  have h := grant_ownership_mismatch (Ledger.mk [] [(7, PaymentRow.mk ("tx-1") 0)]) 7 0
      (fun _ => Except.ok (Tx.mk (some ("succeeded")) ("8"))) (Except.ok ("L")) ("tx-1")
      (Tx.mk (some ("succeeded")) ("8")) (by decide) (by decide) rfl
  exact h.1 (by decide) (by decide)

/-- Witness for C4 at a concrete state: after two grants by user 7 the third
still succeeds with the same link. -/
theorem grant_reenterable_witness :
    (cb_access
        (accessIter 7 0 (fun _ => Except.ok (Tx.mk (some ("succeeded")) ("")))
          (Except.ok ("L")) 2 (Ledger.mk [] [(7, PaymentRow.mk ("tx-1") 0)])) 7 0
        (fun _ => Except.ok (Tx.mk (some ("succeeded")) ("")))
        (Except.ok ("L"))).outcome = AccessOutcome.granted ("L") := by
  have h := grant_reenterable (Ledger.mk [] [(7, PaymentRow.mk ("tx-1") 0)]) 7 0
      (fun _ => Except.ok (Tx.mk (some ("succeeded")) (""))) ("tx-1")
      (Tx.mk (some ("succeeded")) ("")) (by decide) (by decide) rfl rfl (Or.inl rfl)
  exact h.2.1 ("L") 2

/-- Witness for C5 at a concrete state: a `check` by user 1 leaves the
payments table empty and user 2's row untouched. -/
theorem check_effect_is_upsert_witness :
    (cb_check (Ledger.mk [(2, UserRow.mk true 0 0)] []) 1 5
        (fun _ => Except.error ("down"))).1.payments = [] ∧
    lookupA 2 (cb_check (Ledger.mk [(2, UserRow.mk true 0 0)] []) 1 5
        (fun _ => Except.error ("down"))).1.users = some (UserRow.mk true 0 0) := by
  have h := check_effect_is_upsert (Ledger.mk [(2, UserRow.mk true 0 0)] []) 1 5
      (fun _ => Except.error ("down"))
  refine ⟨h.2.1, ?_⟩
  rw [h.2.2.2 2 (by decide)]
  decide

/-- Witness for C6 at a concrete run: users 1 and 2 subscribed, delivery to
user 1 permanently blocked and to user 2 delivered: counters sum to 2, one
blocked, and user 1's rows are gone. -/
theorem broadcast_counters_and_cleanup_witness :
    (cmd_broadcast
          (Ledger.mk [(1, UserRow.mk true 0 0), (2, UserRow.mk true 0 0)]
            [(1, PaymentRow.mk ("p") 0)])
          (BEnv.mk (fun u => if u = 1 then SendResult.forbidden else SendResult.delivered)
            (fun _ => SendResult.delivered))).2.1.blocked = 1 ∧
    lookupA 1 (cmd_broadcast
          (Ledger.mk [(1, UserRow.mk true 0 0), (2, UserRow.mk true 0 0)]
            [(1, PaymentRow.mk ("p") 0)])
          (BEnv.mk (fun u => if u = 1 then SendResult.forbidden else SendResult.delivered)
            (fun _ => SendResult.delivered))).1.users = none ∧
    lookupA 1 (cmd_broadcast
          (Ledger.mk [(1, UserRow.mk true 0 0), (2, UserRow.mk true 0 0)]
            [(1, PaymentRow.mk ("p") 0)])
          (BEnv.mk (fun u => if u = 1 then SendResult.forbidden else SendResult.delivered)
            (fun _ => SendResult.delivered))).1.payments = none := by
  have h := broadcast_counters_and_cleanup
      (Ledger.mk [(1, UserRow.mk true 0 0), (2, UserRow.mk true 0 0)]
        [(1, PaymentRow.mk ("p") 0)])
      (BEnv.mk (fun u => if u = 1 then SendResult.forbidden else SendResult.delivered)
        (fun _ => SendResult.delivered))
  have hdel := h.2.2 1 (by decide) (by decide)
  refine ⟨?_, hdel.1, hdel.2⟩
  rw [h.2.1]
  decide

/-- Witness for C7 at a concrete run: a recipient rate-limited with
`retry_after = 5` pauses for 5.5 seconds (550 centiseconds), is retried
once, and the successful retry counts as delivered. -/
theorem broadcast_rate_limit_retry_witness :
    stepEvents (BEnv.mk (fun _ => SendResult.retryAfter 5) (fun _ => SendResult.delivered)) 1 =
      [BEvent.attempt 1, BEvent.pause 550, BEvent.attempt 1] ∧
    (bstep (BEnv.mk (fun _ => SendResult.retryAfter 5) (fun _ => SendResult.delivered))
        (Ledger.mk [] []) (BCount.mk 0 0 0) 1).2.1 = BCount.mk 1 0 0 := by
  have h := broadcast_rate_limit_retry (Ledger.mk [] [])
      (BEnv.mk (fun _ => SendResult.retryAfter 5) (fun _ => SendResult.delivered)) 1 5 rfl
  refine ⟨h.1, ?_⟩
  have h2 := h.2.1 (Ledger.mk [] []) (BCount.mk 0 0 0)
  simpa using h2

/-- Witness for C8 at a concrete state: committing removes both rows of
user 1; rolling back leaves the state exactly as it was. -/
theorem delete_user_cascades_atomically_witness :
    lookupA 1 (remove_user_tx
        (Ledger.mk [(1, UserRow.mk true 0 0)] [(1, PaymentRow.mk ("p") 0)]) 1 true).users =
      none ∧
    lookupA 1 (remove_user_tx
        (Ledger.mk [(1, UserRow.mk true 0 0)] [(1, PaymentRow.mk ("p") 0)]) 1 true).payments =
      none ∧
    remove_user_tx
        (Ledger.mk [(1, UserRow.mk true 0 0)] [(1, PaymentRow.mk ("p") 0)]) 1 false =
      Ledger.mk [(1, UserRow.mk true 0 0)] [(1, PaymentRow.mk ("p") 0)] := by
  have ht := delete_user_cascades_atomically
      (Ledger.mk [(1, UserRow.mk true 0 0)] [(1, PaymentRow.mk ("p") 0)]) 1 true
  have hf := delete_user_cascades_atomically
      (Ledger.mk [(1, UserRow.mk true 0 0)] [(1, PaymentRow.mk ("p") 0)]) 1 false
  exact ⟨(ht.1 rfl).1, (ht.1 rfl).2, hf.2 rfl⟩

/-- Witness for C9 at a concrete run: user 1's retry after a rate limit hits
the permanent-block error: the step only bumps failed, and user 1's rows
survive the run. -/
theorem retry_forbidden_counts_failed_witness :
    (bstep (BEnv.mk (fun _ => SendResult.retryAfter 3) (fun _ => SendResult.forbidden))
        (Ledger.mk [(1, UserRow.mk true 0 0)] [(1, PaymentRow.mk ("p") 0)])
        (BCount.mk 0 0 0) 1).2.1 = BCount.mk 0 0 1 ∧
    lookupA 1 (cmd_broadcast
        (Ledger.mk [(1, UserRow.mk true 0 0)] [(1, PaymentRow.mk ("p") 0)])
        (BEnv.mk (fun _ => SendResult.retryAfter 3)
          (fun _ => SendResult.forbidden))).1.users = some (UserRow.mk true 0 0) := by
  have h := retry_forbidden_counts_failed
      (Ledger.mk [(1, UserRow.mk true 0 0)] [(1, PaymentRow.mk ("p") 0)])
      (BEnv.mk (fun _ => SendResult.retryAfter 3) (fun _ => SendResult.forbidden)) 1 3 rfl rfl
  refine ⟨?_, ?_⟩
  · have h2 := (h.1 (Ledger.mk [(1, UserRow.mk true 0 0)] [(1, PaymentRow.mk ("p") 0)])
        (BCount.mk 0 0 0)).2
    simpa using h2
  · rw [h.2.1]
    decide

/-- Witness for C10 at concrete states: re-upserting subscribed user 1 keeps
the flag and only moves `updated_at`; upserting into the empty table creates
the user unsubscribed; a `check` leaves user 1 subscribed. -/
theorem upsert_preserves_subscription_witness :
    lookupA 1 (upsert_user (Ledger.mk [(1, UserRow.mk true 0 0)] []) 1 9).users =
      some (UserRow.mk true 0 9) ∧
    lookupA 1 (upsert_user (Ledger.mk [] []) 1 9).users = some (UserRow.mk false 9 9) ∧
    get_subscribed (cb_check (Ledger.mk [(1, UserRow.mk true 0 0)] []) 1 9
        (fun _ => Except.error ("d"))).1 1 = true := by
  have h := upsert_preserves_subscription (Ledger.mk [(1, UserRow.mk true 0 0)] []) 1 9
  have h0 := upsert_preserves_subscription (Ledger.mk [] []) 1 9
  refine ⟨h.1 (UserRow.mk true 0 0) rfl, h0.2.1 rfl, ?_⟩
  rw [h.2.2.2.2.2.2.1 (fun _ => Except.error ("d")) 1]
  decide

end GambitBot
